import Mathlib

/-!
# Verification of the rbd-to-zfs backup worker (`src/main.py`)

Shallow embedding of the replication state machine and delta-copy engine of
`main.py`.  External collaborators (the `rbd`/`zfs`/`blockdev` command line
tools, the filesystem check for the destination block device, the random
snapshot-name suffix) are modelled by an explicit `World` record holding the
answers those collaborators would give during one run; the program logic
itself (mode resolution, the two copy loops, the run sequencing and the
cleanup handler) is translated function by function from the source.

Byte devices are modelled as functions `Nat → Nat` (byte value at each
offset) together with an explicit size; `read` at a position past the device
end returns the empty chunk, exactly as a `read()` on a block device at EOF
returns `b''`.  The two copy loops are given an explicit fuel argument: a
result `some _` with fuel `f` means the Python `while` loop finishes within
`f` iterations, and `none` for every fuel means it never exits.
-/

namespace RbdZfsBackup

/-- Constant `COPY_BLOCKSIZE = (2**20) * 4`, the 4 MiB chunk size of both copy loops
(`main.py` line 31). -/
def COPY_BLOCKSIZE : Nat := (2 ^ 20) * 4

/-- Constant `INTERNAL_SNAPSHOT_PREFIX = 'backup_snapshot_'` (`main.py` line 29); the
fixed marker that distinguishes replication-owned snapshots. -/
def internalSnapshotMarker : String := "backup_snapshot_"

/-- Test `snapshot['name'].startswith(INTERNAL_SNAPSHOT_PREFIX, 0, len(INTERNAL_SNAPSHOT_PREFIX))`
(`main.py` lines 88 and 96): the marker string is a prefix of the name.
Python's `str.startswith` is character-sequence prefix testing, modelled on
the character data of the Lean strings. -/
def isMarkerName (s : String) : Bool :=
  internalSnapshotMarker.data.isPrefixOf s.data

/-- Command-line arguments of one run (`main.py` lines 6-18); only the fields
the core logic reads.  `verbose`/`debug` feed logging only and are omitted. -/
structure Args where
  source : String
  destination : String
  pool : String
  fsync : Bool
  wholeObject : Bool
  noScrubbing : Bool

/-- One changed byte range reported by `rbd diff` (`main.py` line 173):
a JSON object with `offset` and `length` fields. -/
structure Extent where
  offset : Nat
  length : Nat
  deriving Repr, DecidableEq

/-- The answers of every external collaborator during one run.  The program
is single-threaded and queries each fact through shell commands; a fixed
`World` models an external state that does not change during the run. -/
structure World where
  /-- `rbd ls` output: volume names in the pool (`main.py` line 75). -/
  cephVolumes : List String
  /-- `rbd snap ls` output for the source volume: snapshot names (line 81). -/
  cephSnapshots : List String
  /-- destination path exists and is a block-special node (lines 59-66). -/
  zfsTargetExists : Bool
  /-- the 8-hex-char random suffix drawn in `createCephSnapshot` (line 127). -/
  cephSnapSuffix : String
  /-- exit code of `rbd snap create` (line 129). -/
  cephSnapCreateCode : Nat
  /-- the random suffix drawn in `createZfsSnapshot` (line 140). -/
  zfsSnapSuffix : String
  /-- exit code of `zfs snapshot` (line 142). -/
  zfsSnapCreateCode : Nat
  /-- exit code of `zfs create -V` (line 154). -/
  zfsCreateVolCode : Nat
  /-- `rbd info` size of the source volume (line 148). -/
  cephVolumeSize : Nat
  /-- device path printed by `rbd nbd map` (line 167). -/
  mappedDev : String
  /-- `blockdev --getsize64` of the mapped source device (line 180). -/
  srcDevSize : Nat
  /-- `blockdev --getsize64` of the destination zvol device (line 181). -/
  dstDevSize : Nat
  /-- byte content of the mapped source device. -/
  srcData : Nat → Nat
  /-- byte content of the destination zvol device before the run. -/
  dstData : Nat → Nat
  /-- `rbd diff` output between the two snapshots (line 173). -/
  delta : List Extent
  /-- whether the best-effort `rbd snap rm` actually removes the snapshot
  (its exit status is ignored by `execRaw`, line 70). -/
  removeSucceeds : Bool

/-- Function `countPreviousCephSnapsots` (`main.py` lines 84-91): count the snapshots
of the source volume whose name carries the marker. -/
def countPreviousCephSnapsots (snaps : List String) : Nat :=
  snaps.countP isMarkerName

/-- Function `previousCephSnapsotName` (`main.py` lines 93-98): first snapshot name
carrying the marker, or the `RuntimeError` of line 98. -/
def previousCephSnapsotName (snaps : List String) : Except String String :=
  match snaps.find? isMarkerName with
  | some n => Except.ok n
  | none => Except.error "cannot determine ceph snapshot name, aborting!"

/-- The resolved replication mode (`BACKUPMODE_INITIAL` /
`BACKUPMODE_INCREMENTAL` plus the `base_snapshot` field of the returned
dictionary, `main.py` lines 121-123). -/
inductive BackupMode where
  | initial
  | incremental (baseSnapshot : String)
  deriving Repr, DecidableEq

deriving instance DecidableEq for Except

/-- Error message of `main.py` line 105. -/
def notFoundMsg (a : Args) : String :=
  "invalid arguments, source volume does not exist " ++ a.source

/-- Error message of `main.py` line 112. -/
def inconsistentMsg1 (a : Args) : String :=
  "inconsistent state, more than one old snapshot for volume " ++ a.source ++
    " (rbd -p " ++ a.pool ++ " snap ls " ++ a.source ++ ")"

/-- Error message of `main.py` line 115. -/
def inconsistentMsg2 (a : Args) : String :=
  "inconsistent state, source snapshot found but target does not exist " ++
    a.destination ++ " (rbd -p " ++ a.pool ++ " snap ls " ++ a.source ++ ")"

/-- Error message of `main.py` line 118. -/
def inconsistentMsg3 (a : Args) : String :=
  "inconsistent state, source snapshot not found but target does exist" ++
    " (zfs destroy -R " ++ a.destination ++ ")"

/-- Function `getBackupMode` (`main.py` lines 101-123), with the `raise RuntimeError`
statements modelled as `Except.error` carrying the exact message.
`sourceExists`, `targetExsists` [sic] and `previousSnapshotCount` of the
source are inlined. -/
def getBackupMode (a : Args) (w : World) : Except String BackupMode :=
  if w.cephVolumes.contains a.source = false then
    Except.error (notFoundMsg a)
  else if countPreviousCephSnapsots w.cephSnapshots > 1 then
    Except.error (inconsistentMsg1 a)
  else if countPreviousCephSnapsots w.cephSnapshots = 1 ∧ w.zfsTargetExists = false then
    Except.error (inconsistentMsg2 a)
  else if countPreviousCephSnapsots w.cephSnapshots = 0 ∧ w.zfsTargetExists = true then
    Except.error (inconsistentMsg3 a)
  else if countPreviousCephSnapsots w.cephSnapshots = 0 ∧ w.zfsTargetExists = false then
    Except.ok BackupMode.initial
  else
    match previousCephSnapsotName w.cephSnapshots with
    | Except.ok n => Except.ok (BackupMode.incremental n)
    | Except.error e => Except.error e

/-! ## The byte-transfer primitives -/

/-- A `fh.read(count)` call on a block device of `size` bytes at position `pos`:
returns the next `count` bytes, truncated at end of device (an empty list
past the end, as Python's `read` returns `b''` at EOF). -/
def readAt (src : Nat → Nat) (size pos count : Nat) : List Nat :=
  (List.range (min count (size - pos))).map (fun k => src (pos + k))

/-- A `fh.write(data)` call at position `pos`: the device with `data` overlaid at
offsets `pos, pos+1, ...`. -/
def writeAt (dest : Nat → Nat) (pos : Nat) (data : List Nat) : Nat → Nat :=
  fun j => if pos ≤ j ∧ j < pos + data.length then data.getD (j - pos) 0 else dest j

/-- The mutable state of the incremental sub-chunk loop (`main.py`
lines 292-311): the destination contents, both file positions, the `read`
counter, and the byte counts of the `dfh.write` calls issued so far. -/
structure CopyState where
  dest : Nat → Nat
  spos : Nat
  dpos : Nat
  read : Nat
  writes : List Nat

/-- One iteration of the `while (read < length)` body (`main.py`
lines 301-311): `s = min(length - read, COPY_BLOCKSIZE)`, `d = sfh.read(s)`,
`read += len(d)`, `dfh.write(d)` (the optional flush has no data effect). -/
def copyExtentStep (src : Nat → Nat) (size B length : Nat) (st : CopyState) : CopyState :=
  let s := min (length - st.read) B
  let d := readAt src size st.spos s
  { dest := writeAt st.dest st.dpos d
    spos := st.spos + d.length
    dpos := st.dpos + d.length
    read := st.read + d.length
    writes := st.writes ++ [d.length] }

/-- The `while (read < length)` loop (`main.py` line 301), run for at most
`fuel` iterations; `none` means the loop is still running after `fuel`
iterations. -/
def copyExtentLoop (src : Nat → Nat) (size B length : Nat) :
    Nat → CopyState → Option CopyState
  | 0, st => if st.read < length then none else some st
  | fuel + 1, st =>
      if st.read < length then
        copyExtentLoop src size B length fuel (copyExtentStep src size B length st)
      else some st

/-- The `for block in delta` loop (`main.py` lines 291-311): for each extent,
seek both handles to `block['offset']`, reset `read = 0`, and run the
sub-chunk loop.  Returns the final destination contents and the byte counts
of all writes, or `none` when some extent's sub-chunk loop never exits
(`e.length` iterations always suffice when it does exit, since every
productive iteration reads at least one byte). -/
def copyDelta (src : Nat → Nat) (size B : Nat) :
    List Extent → (Nat → Nat) → Option ((Nat → Nat) × List Nat)
  | [], d => some (d, [])
  | e :: es, d =>
      match copyExtentLoop src size B e.length e.length
          { dest := d, spos := e.offset, dpos := e.offset, read := 0, writes := [] } with
      | none => none
      | some st =>
          match copyDelta src size B es st.dest with
          | none => none
          | some (d2, ws2) => some (d2, st.writes ++ ws2)

/-- The full-copy `while (True)` loop (`main.py` lines 245-259):
`d = sfh.read(COPY_BLOCKSIZE)`, break on empty read, else `read += len(d)`,
`dfh.write(d)`.  Returns `(number of read calls, byte counts written)`;
`rc`/`ws` are the accumulators so far, `fuel` bounds the iterations. -/
def copyFullLoop (src : Nat → Nat) (size B : Nat) :
    Nat → Nat → Nat → List Nat → Option (Nat × List Nat)
  | 0, _pos, _rc, _ws => none
  | fuel + 1, pos, rc, ws =>
      if (readAt src size pos B).length = 0 then some (rc + 1, ws)
      else
        copyFullLoop src size B fuel (pos + (readAt src size pos B).length)
          (rc + 1) (ws ++ [(readAt src size pos B).length])

/-! ## The run sequence -/

/-- The externally visible commands a run issues, in order.  Log output,
health polling and the scrub toggling are omitted: they carry no replication
state.  `writeBytes n` is one `dfh.write` call of `n` bytes. -/
inductive Event where
  | createCephSnap (volume name : String)
  | createZfsVol (volume : String) (size : Nat)
  | mapVolume (volumeAtSnap : String)
  | writeBytes (count : Nat)
  | createZfsSnap (volume name : String)
  | removeCephSnap (volume name : String)
  | unmapVolume (dev : String)
  | scrubEnable
  deriving Repr, DecidableEq

/-- How the `try` block of `main.py` (lines 217-328) ends: normally, with a
raised `RuntimeError` message, or never (a copy loop that does not exit). -/
inductive RunOutcome where
  | ok
  | error (msg : String)
  | hang
  deriving Repr, DecidableEq

/-- Result of one run: the commands issued, the outcome, and the source
volume's snapshot list afterwards. -/
structure RunResult where
  trace : List Event
  outcome : RunOutcome
  cephSnapshots : List String

/-- Function `compareDeviceSize` (`main.py` lines 178-185): raise on differing sizes,
return the size otherwise. -/
def compareDeviceSize (w : World) : Except String Nat :=
  if w.srcDevSize ≠ w.dstDevSize then
    Except.error ("size mismatch between source and destination " ++
      toString w.srcDevSize ++ " vs " ++ toString w.dstDevSize)
  else Except.ok w.srcDevSize

/-- The `BACKUPMODE_INITIAL` branch (`main.py` lines 230-266):
create a ceph marker snapshot, create the destination zvol, map the source
at the snapshot, compare device sizes, full copy, create the destination
snapshot.  The full-copy loop always exits within `size + 2` read calls
on a `size`-byte device, so that fuel is an upper bound, not a truncation. -/
def runInitial (a : Args) (w : World) : RunResult :=
  let snapshot := internalSnapshotMarker ++ w.cephSnapSuffix
  let ev1 := [Event.createCephSnap a.source snapshot]
  if w.cephSnapCreateCode ≠ 0 then
    { trace := ev1
      outcome := RunOutcome.error
        ("error creating ceph snapshot code: " ++ toString w.cephSnapCreateCode)
      cephSnapshots := w.cephSnapshots }
  else
    let snaps1 := w.cephSnapshots ++ [snapshot]
    let ev2 := ev1 ++ [Event.createZfsVol a.destination w.cephVolumeSize]
    if w.zfsCreateVolCode ≠ 0 then
      { trace := ev2
        outcome := RunOutcome.error
          ("error creating ZFS volume code: " ++ toString w.zfsCreateVolCode)
        cephSnapshots := snaps1 }
    else
      let ev3 := ev2 ++ [Event.mapVolume (a.source ++ "@" ++ snapshot)]
      match compareDeviceSize w with
      | Except.error e =>
          { trace := ev3, outcome := RunOutcome.error e, cephSnapshots := snaps1 }
      | Except.ok size =>
          match copyFullLoop w.srcData size COPY_BLOCKSIZE (size + 2) 0 0 [] with
          | none => { trace := ev3, outcome := RunOutcome.hang, cephSnapshots := snaps1 }
          | some (_rc, ws) =>
              let ev4 := ev3 ++ ws.map Event.writeBytes
              let zname := internalSnapshotMarker ++ w.zfsSnapSuffix
              let ev5 := ev4 ++ [Event.createZfsSnap a.destination zname]
              if w.zfsSnapCreateCode ≠ 0 then
                { trace := ev5
                  outcome := RunOutcome.error
                    ("error creating zfs snapshot code: " ++ toString w.zfsSnapCreateCode)
                  cephSnapshots := snaps1 }
              else { trace := ev5, outcome := RunOutcome.ok, cephSnapshots := snaps1 }

/-- The `BACKUPMODE_INCREMENTAL` branch (`main.py` lines 268-326):
create the new ceph marker snapshot, map the source at it, compare device
sizes (result discarded, line 272), fetch the delta, extent-wise copy,
create the destination snapshot (line 325), then issue the best-effort
removal of the old marker (line 326, exit status ignored).  The old marker
disappears from the snapshot list only when the removal actually succeeds. -/
def runIncremental (a : Args) (w : World) (snapshot1 : String) : RunResult :=
  let snapshot2 := internalSnapshotMarker ++ w.cephSnapSuffix
  let ev1 := [Event.createCephSnap a.source snapshot2]
  if w.cephSnapCreateCode ≠ 0 then
    { trace := ev1
      outcome := RunOutcome.error
        ("error creating ceph snapshot code: " ++ toString w.cephSnapCreateCode)
      cephSnapshots := w.cephSnapshots }
  else
    let snaps1 := w.cephSnapshots ++ [snapshot2]
    let ev2 := ev1 ++ [Event.mapVolume (a.source ++ "@" ++ snapshot2)]
    match compareDeviceSize w with
    | Except.error e =>
        { trace := ev2, outcome := RunOutcome.error e, cephSnapshots := snaps1 }
    | Except.ok _size =>
        match copyDelta w.srcData w.srcDevSize COPY_BLOCKSIZE w.delta w.dstData with
        | none => { trace := ev2, outcome := RunOutcome.hang, cephSnapshots := snaps1 }
        | some (_d, ws) =>
            let ev3 := ev2 ++ ws.map Event.writeBytes
            let zname := internalSnapshotMarker ++ w.zfsSnapSuffix
            let ev4 := ev3 ++ [Event.createZfsSnap a.destination zname]
            if w.zfsSnapCreateCode ≠ 0 then
              { trace := ev4
                outcome := RunOutcome.error
                  ("error creating zfs snapshot code: " ++ toString w.zfsSnapCreateCode)
                cephSnapshots := snaps1 }
            else
              let ev5 := ev4 ++ [Event.removeCephSnap a.source snapshot1]
              { trace := ev5
                outcome := RunOutcome.ok
                cephSnapshots :=
                  if w.removeSucceeds then snaps1.erase snapshot1 else snaps1 }

/-- The whole `try` block (`main.py` lines 217-328): resolve the mode, then
dispatch on it.  Health waiting and scrub toggling issue no replication
commands and are omitted from the trace. -/
def run (a : Args) (w : World) : RunResult :=
  match getBackupMode a w with
  | Except.error e =>
      { trace := [], outcome := RunOutcome.error e, cephSnapshots := w.cephSnapshots }
  | Except.ok BackupMode.initial => runInitial a w
  | Except.ok (BackupMode.incremental base) => runIncremental a w base

/-! ## The cleanup handler -/

/-- The module-level variables the `cleanup` handler reads (`main.py`
lines 33-34 and 210-215): the mapped device path, and the `noScrubbing`
flag. -/
structure CleanupState where
  sourcePath : Option String
  noScrubbing : Bool

/-- Function `cleanup` (`main.py` lines 208-215): unmap the device when one is
mapped, re-enable scrubbing when it was disabled.  It is registered as the
SIGINT/SIGTERM handler (lines 218-219) and also runs in the `finally` block
(line 342).  It mutates no state: in particular it never resets
`sourcePath`, which the returned (unchanged) state records. -/
def cleanup (st : CleanupState) : List Event × CleanupState :=
  ((match st.sourcePath with
    | some dev => [Event.unmapVolume dev]
    | none => []) ++
   (if st.noScrubbing then [Event.scrubEnable] else []),
   st)

/-! ## Concrete example runs -/

/-- Arguments of a concrete run, for evaluating the model. -/
def exArgs : Args :=
  { source := "vol", destination := "backup/dest", pool := "rbd",
    fsync := false, wholeObject := true, noScrubbing := false }

/-- A healthy first-run world: no markers, no destination, equal 4-byte
devices. -/
def exWorld : World :=
  { cephVolumes := ["vol"]
    cephSnapshots := []
    zfsTargetExists := false
    cephSnapSuffix := "0a1b2c3d"
    cephSnapCreateCode := 0
    zfsSnapSuffix := "4e5f6071"
    zfsSnapCreateCode := 0
    zfsCreateVolCode := 0
    cephVolumeSize := 4
    mappedDev := "/dev/nbd0"
    srcDevSize := 4
    dstDevSize := 4
    srcData := fun _ => 0
    dstData := fun _ => 0
    delta := []
    removeSucceeds := true }

/-- A first-run world whose source and destination devices differ in size
(10 bytes vs 8 bytes). -/
def exWorldMismatch : World :=
  { exWorld with srcDevSize := 10, dstDevSize := 8 }

/-- An incremental-run world with one marker, a present destination, one
2-byte changed extent, and a failing `rbd snap rm`. -/
def exWorldIncr : World :=
  { exWorld with
    cephSnapshots := ["backup_snapshot_aa"]
    zfsTargetExists := true
    delta := [⟨0, 2⟩]
    removeSucceeds := false
    srcData := fun i => if i < 4 then 7 else 0 }

/-- An incremental-run world with one marker, a present destination and an
empty delta (no changes since the previous run). -/
def exWorldIncrEmpty : World :=
  { exWorld with
    cephSnapshots := ["backup_snapshot_aa"]
    zfsTargetExists := true }

/-! ## Helper lemmas -/

theorem readAt_length (src : Nat → Nat) (size pos count : Nat) :
    (readAt src size pos count).length = min count (size - pos) := by
  simp [readAt]

theorem isMarkerName_append (t : String) :
    isMarkerName (internalSnapshotMarker ++ t) = true := by
  simp [isMarkerName, List.isPrefixOf_iff_prefix]

theorem getD_map_range (f : Nat → Nat) (n k : Nat) (h : k < n) :
    ((List.range n).map f).getD k 0 = f k := by
  simp [List.getD_eq_getElem?_getD, List.getElem?_map, List.getElem?_range h]

theorem countP_find?_none {p : String → Bool} {l : List String}
    (h : l.find? p = none) : l.countP p = 0 := by
  rw [List.countP_eq_zero]
  intro a ha
  simpa using List.find?_eq_none.mp h a ha

theorem countP_erase_of_mem {p : String → Bool} {l : List String} {a : String}
    (h : a ∈ l) (hp : p a = true) : (l.erase a).countP p = l.countP p - 1 := by
  obtain ⟨l1, l2, _hn, hl, he⟩ := List.exists_erase_eq h
  subst hl
  rw [he]
  simp [List.countP_append, List.countP_cons, hp]

theorem countP_one_unique {p : String → Bool} {l : List String} {b : String}
    (h1 : l.countP p = 1) (h2 : l.find? p = some b) :
    ∀ s ∈ l, p s = true → s = b := by
  induction l with
  | nil => simp
  | cons x xs ih =>
      intro s hs hp
      by_cases hx : p x = true
      · have hb : b = x := by
          rw [List.find?_cons_of_pos _ hx] at h2
          exact (Option.some_inj.mp h2).symm
        have hxs : xs.countP p = 0 := by
          simp [List.countP_cons, hx] at h1
          exact List.countP_eq_zero.mpr (fun a ha => by simp [h1 a ha])
        rcases List.mem_cons.mp hs with h | h
        · rw [h, hb]
        · exfalso
          have := List.countP_eq_zero.mp hxs s h
          simp [hp] at this
      · have hx' : p x = false := by simpa using hx
        rw [List.find?_cons_of_neg _ (by simp [hx'])] at h2
        have h1' : xs.countP p = 1 := by
          simpa [List.countP_cons, hx'] using h1
        rcases List.mem_cons.mp hs with h | h
        · exfalso; rw [h] at hp; simp [hp] at hx'
        · exact ih h1' h2 s h hp

theorem ceil_div_le_self (n B : Nat) (hB : 0 < B) : (n + B - 1) / B ≤ n := by
  rw [Nat.div_le_iff_le_mul_add_pred hB]
  have := Nat.le_mul_of_pos_left n hB
  omega

/-- Removing one sub-chunk of `min m B` bytes from a remainder of `m > 0`
bytes lowers the remaining iteration count `ceil(m / B)` by exactly one. -/
theorem ceil_sub_chunk (B m : Nat) (hB : 0 < B) (hm : 0 < m) :
    (m - min m B + B - 1) / B + 1 = (m + B - 1) / B := by
  by_cases h : m ≤ B
  · rw [Nat.min_eq_left h]
    have h1 : m - m = 0 := by omega
    rw [h1]
    rw [Nat.div_eq_of_lt (by omega)]
    have h2 : (m + B - 1) / B = 1 := by
      apply Nat.div_eq_of_lt_le <;> omega
    omega
  · rw [Nat.min_eq_right (by omega)]
    have h2 : m - B + B - 1 = m - 1 := by omega
    have h3 : m + B - 1 = (m - 1) + B := by omega
    rw [h2, h3, Nat.add_div_right _ hB]

/-- Inverting a successful `Incremental` mode resolution: the marker count
is one, the destination exists, and the base snapshot is the first (hence,
by `countP_one_unique`, the only) marker in the listing. -/
theorem getBackupMode_incremental_inv {a : Args} {w : World} {b : String}
    (h : getBackupMode a w = Except.ok (BackupMode.incremental b)) :
    w.cephVolumes.contains a.source = true ∧
    countPreviousCephSnapsots w.cephSnapshots = 1 ∧
    w.zfsTargetExists = true ∧
    w.cephSnapshots.find? isMarkerName = some b := by
  unfold getBackupMode at h
  split_ifs at h with hc h1 h2 h3 h4
  · exact absurd (Except.ok.inj h) (fun hx => BackupMode.noConfusion hx)
  have hcount : countPreviousCephSnapsots w.cephSnapshots = 1 := by
    rcases hw : w.zfsTargetExists with _ | _
    · by_cases h0 : countPreviousCephSnapsots w.cephSnapshots = 0
      · exact absurd ⟨h0, hw⟩ h4
      · omega
    · by_cases h0 : countPreviousCephSnapsots w.cephSnapshots = 0
      · exact absurd ⟨h0, hw⟩ h3
      · omega
  have htarget : w.zfsTargetExists = true := by
    rcases hw : w.zfsTargetExists with _ | _
    · exact absurd ⟨hcount, hw⟩ h2
    · rfl
  have hcontains : w.cephVolumes.contains a.source = true := by
    rcases hx : w.cephVolumes.contains a.source with _ | _
    · exact absurd hx hc
    · rfl
  unfold previousCephSnapsotName at h
  rcases hf : w.cephSnapshots.find? isMarkerName with _ | n
  · rw [hf] at h; exact Except.noConfusion h
  · rw [hf] at h
    have hb : n = b := by
      have hok := Except.ok.inj h
      exact BackupMode.incremental.inj hok
    subst hb
    exact ⟨hcontains, hcount, htarget, rfl⟩

/-! ## Soundness of the extent sub-chunk loop -/

/-- One productive iteration, on a device that still has the whole sub-chunk
available: it transfers exactly `min (length - read) B` bytes. -/
theorem copyExtentStep_spec (src : Nat → Nat) (size B length offset r : Nat)
    (d : Nat → Nat) (ws : List Nat) (hN : offset + length ≤ size) :
    copyExtentStep src size B length ⟨d, offset + r, offset + r, r, ws⟩ =
      { dest := writeAt d (offset + r) (readAt src size (offset + r) (min (length - r) B))
        spos := offset + r + min (length - r) B
        dpos := offset + r + min (length - r) B
        read := r + min (length - r) B
        writes := ws ++ [min (length - r) B] } := by
  have hlen : (readAt src size (offset + r) (min (length - r) B)).length
      = min (length - r) B := by
    rw [readAt_length]
    apply Nat.min_eq_left
    have := Nat.min_le_left (length - r) B
    omega
  simp [copyExtentStep, hlen]

/-- Writing the bytes read back from the source over `[offset+r, offset+r+s)`
extends the already-copied region by `s` more bytes. -/
theorem writeAt_readAt_spec (src d0 d : Nat → Nat) (size offset r s : Nat)
    (hin : offset + r + s ≤ size)
    (hd : ∀ j, d j = if offset ≤ j ∧ j < offset + r then src j else d0 j) :
    ∀ j, writeAt d (offset + r) (readAt src size (offset + r) s) j =
      if offset ≤ j ∧ j < offset + (r + s) then src j else d0 j := by
  intro j
  have hlen : (readAt src size (offset + r) s).length = s := by
    rw [readAt_length]
    exact Nat.min_eq_left (by omega)
  unfold writeAt
  rw [hlen]
  by_cases hj : offset + r ≤ j ∧ j < offset + r + s
  · rw [if_pos hj]
    have hk : j - (offset + r) < s := by omega
    unfold readAt
    have hmin : min s (size - (offset + r)) = s := Nat.min_eq_left (by omega)
    rw [hmin, getD_map_range _ _ _ hk]
    have hjj : offset + r + (j - (offset + r)) = j := by omega
    rw [hjj, if_pos (by omega)]
  · rw [if_neg hj, hd j]
    by_cases hj2 : offset ≤ j ∧ j < offset + r
    · rw [if_pos hj2, if_pos (by omega)]
    · rw [if_neg hj2, if_neg (by omega)]

/-- Main soundness of the `while (read < length)` loop on an extent lying
entirely inside the device: with `ceil((length - read)/B)` fuel it finishes,
having issued exactly that many writes, with `read = length` and the
destination holding the source bytes over `[offset, offset+length)`. -/
theorem copyExtentLoop_sound (src d0 : Nat → Nat) (size B offset length : Nat)
    (hB : 0 < B) (hN : offset + length ≤ size) :
    ∀ fuel r d ws, r ≤ length → (length - r + B - 1) / B ≤ fuel →
      (∀ j, d j = if offset ≤ j ∧ j < offset + r then src j else d0 j) →
      ∃ st', copyExtentLoop src size B length fuel ⟨d, offset + r, offset + r, r, ws⟩
          = some st' ∧
        st'.read = length ∧
        st'.writes.length = ws.length + (length - r + B - 1) / B ∧
        ∀ j, st'.dest j = if offset ≤ j ∧ j < offset + length then src j else d0 j := by
  intro fuel
  induction fuel with
  | zero =>
      intro r d ws hr hfuel hd
      have h1 : (length - r + B - 1) / B = 0 := Nat.le_zero.mp hfuel
      have h2 : length - r + B - 1 < B := (Nat.div_eq_zero_iff hB).mp h1
      have hrl : r = length := by omega
      subst hrl
      refine ⟨⟨d, offset + r, offset + r, r, ws⟩, ?_, rfl, ?_, hd⟩
      · simp [copyExtentLoop]
      · have hb0 : (B - 1) / B = 0 := Nat.div_eq_of_lt (by omega)
        simp [hb0]
  | succ fuel ih =>
      intro r d ws hr hfuel hd
      by_cases hrl : r < length
      · have hunf : copyExtentLoop src size B length (fuel + 1)
            ⟨d, offset + r, offset + r, r, ws⟩
            = copyExtentLoop src size B length fuel
              (copyExtentStep src size B length ⟨d, offset + r, offset + r, r, ws⟩) := by
          simp [copyExtentLoop, hrl]
        rw [hunf, copyExtentStep_spec src size B length offset r d ws hN]
        have hs1 : min (length - r) B ≤ length - r := Nat.min_le_left _ _
        have hs2 : 0 < min (length - r) B := Nat.lt_min.mpr ⟨by omega, hB⟩
        have e1 : offset + r + min (length - r) B = offset + (r + min (length - r) B) := by
          omega
        rw [e1]
        have hid := ceil_sub_chunk B (length - r) hB (by omega)
        have e2 : length - (r + min (length - r) B) = length - r - min (length - r) B := by
          omega
        obtain ⟨st', hloop, hread, hwlen, hdest⟩ :=
          ih (r + min (length - r) B)
            (writeAt d (offset + r) (readAt src size (offset + r) (min (length - r) B)))
            (ws ++ [min (length - r) B])
            (by omega)
            (by rw [e2]; omega)
            (writeAt_readAt_spec src d0 d size offset r (min (length - r) B)
              (by omega) hd)
        refine ⟨st', hloop, hread, ?_, hdest⟩
        rw [hwlen, e2]
        simp only [List.length_append, List.length_cons, List.length_nil]
        omega
      · have hrl' : r = length := by omega
        subst hrl'
        have h0 : (r - r + B - 1) / B = 0 := by
          rw [Nat.sub_self]
          exact Nat.div_eq_of_lt (by omega)
        refine ⟨⟨d, offset + r, offset + r, r, ws⟩, ?_, rfl, ?_, hd⟩
        · simp [copyExtentLoop]
        · have hb0 : (B - 1) / B = 0 := Nat.div_eq_of_lt (by omega)
          simp [hb0]

/-- With less than `ceil((length - read)/B)` fuel the loop has not finished
yet: every productive iteration consumes one fuel unit, so the loop runs for
at least `ceil` iterations. -/
theorem copyExtentLoop_fuel_lt (src : Nat → Nat) (size B offset length : Nat)
    (hB : 0 < B) (hN : offset + length ≤ size) :
    ∀ fuel r d ws, r ≤ length → fuel < (length - r + B - 1) / B →
      copyExtentLoop src size B length fuel ⟨d, offset + r, offset + r, r, ws⟩ = none := by
  intro fuel
  induction fuel with
  | zero =>
      intro r d ws hr hfuel
      have hrl : r < length := by
        by_contra hx
        have h0 : length - r = 0 := by omega
        rw [h0, Nat.div_eq_of_lt (by omega)] at hfuel
        omega
      simp [copyExtentLoop, hrl]
  | succ fuel ih =>
      intro r d ws hr hfuel
      have hrl : r < length := by
        by_contra hx
        have h0 : length - r = 0 := by omega
        rw [h0, Nat.div_eq_of_lt (by omega)] at hfuel
        omega
      have hunf : copyExtentLoop src size B length (fuel + 1)
          ⟨d, offset + r, offset + r, r, ws⟩
          = copyExtentLoop src size B length fuel
            (copyExtentStep src size B length ⟨d, offset + r, offset + r, r, ws⟩) := by
        simp [copyExtentLoop, hrl]
      rw [hunf, copyExtentStep_spec src size B length offset r d ws hN]
      have hs1 : min (length - r) B ≤ length - r := Nat.min_le_left _ _
      have e1 : offset + r + min (length - r) B = offset + (r + min (length - r) B) := by
        omega
      rw [e1]
      have hid := ceil_sub_chunk B (length - r) hB (by omega)
      have e2 : length - (r + min (length - r) B) = length - r - min (length - r) B := by
        omega
      apply ih (r + min (length - r) B)
      · omega
      · rw [e2]; omega

/-- If the extent claims more bytes than the device holds past `offset`
(`size - offset < length`), the `read` counter can never reach `length`:
reads return nothing once the position passes the device end, so the loop
never exits, whatever the fuel. -/
theorem copyExtentLoop_stuck (src : Nat → Nat) (size B offset length : Nat)
    (hshort : size - offset < length) :
    ∀ fuel st, st.spos = offset + st.read → st.read ≤ size - offset →
      copyExtentLoop src size B length fuel st = none := by
  intro fuel
  induction fuel with
  | zero =>
      intro st h1 h2
      have : st.read < length := by omega
      simp [copyExtentLoop, this]
  | succ fuel ih =>
      intro st h1 h2
      have hrl : st.read < length := by omega
      have hunf : copyExtentLoop src size B length (fuel + 1) st
          = copyExtentLoop src size B length fuel (copyExtentStep src size B length st) := by
        simp [copyExtentLoop, hrl]
      rw [hunf]
      apply ih
      · simp [copyExtentStep, readAt_length, h1]
        omega
      · simp [copyExtentStep, readAt_length, h1]
        have := Nat.min_le_right (min (length - st.read) B) (size - (offset + st.read))
        omega

/-- Soundness of the whole extent list: when every extent fits the device,
`copyDelta` completes, the bytes covered by some extent hold the source's
(new snapshot's) content, and all other bytes are untouched. -/
theorem copyDelta_sound (src : Nat → Nat) (size B : Nat) (hB : 0 < B) :
    ∀ (es : List Extent) (d : Nat → Nat),
      (∀ e ∈ es, e.offset + e.length ≤ size) →
      ∃ d' ws, copyDelta src size B es d = some (d', ws) ∧
        (∀ j, (∃ e ∈ es, e.offset ≤ j ∧ j < e.offset + e.length) → d' j = src j) ∧
        (∀ j, (∀ e ∈ es, ¬(e.offset ≤ j ∧ j < e.offset + e.length)) → d' j = d j) := by
  intro es
  induction es with
  | nil =>
      intro d _
      exact ⟨d, [], rfl, by simp, fun j _ => rfl⟩
  | cons e es ih =>
      intro d hwithin
      have he : e.offset + e.length ≤ size := hwithin e (by simp)
      have hfuel : (e.length - 0 + B - 1) / B ≤ e.length := by
        simpa using ceil_div_le_self e.length B hB
      obtain ⟨st', hloop, _hread, _hwlen, hdest⟩ :=
        copyExtentLoop_sound src d size B e.offset e.length hB he e.length 0 d []
          (Nat.zero_le _) hfuel (fun j => by rw [if_neg (by omega)])
      simp only [Nat.add_zero] at hloop
      obtain ⟨d2, ws2, hrec, hcov, hunc⟩ :=
        ih st'.dest (fun e' he' => hwithin e' (List.mem_cons_of_mem _ he'))
      refine ⟨d2, st'.writes ++ ws2, ?_, ?_, ?_⟩
      · simp only [copyDelta]
        rw [hloop]
        dsimp only
        rw [hrec]
      · intro j hj
        rcases hj with ⟨e', he', hrange⟩
        rcases List.mem_cons.mp he' with hcase | hcase
        · subst hcase
          by_cases hc2 : ∃ e2 ∈ es, e2.offset ≤ j ∧ j < e2.offset + e2.length
          · exact hcov j hc2
          · have hne : ∀ e2 ∈ es, ¬(e2.offset ≤ j ∧ j < e2.offset + e2.length) := by
              intro e2 he2 hx
              exact hc2 ⟨e2, he2, hx⟩
            rw [hunc j hne, hdest j, if_pos (by omega)]
        · exact hcov j ⟨e', hcase, hrange⟩
      · intro j hj
        have hj0 : ¬(e.offset ≤ j ∧ j < e.offset + e.length) := hj e (by simp)
        have hjes : ∀ e2 ∈ es, ¬(e2.offset ≤ j ∧ j < e2.offset + e2.length) := by
          intro e2 he2
          exact hj e2 (List.mem_cons_of_mem _ he2)
        rw [hunc j hjes, hdest j, if_neg (by omega)]

/-- Soundness of the full-copy loop: from position `pos` on a `size`-byte
device it finishes after exactly `ceil((size-pos)/B)` productive reads plus
one empty read, writing `size - pos` bytes in `ceil((size-pos)/B)` chunks. -/
theorem copyFullLoop_sound (src : Nat → Nat) (size B : Nat) (hB : 0 < B) :
    ∀ fuel pos rc ws, pos ≤ size → (size - pos + B - 1) / B + 1 ≤ fuel →
      ∃ ws2, copyFullLoop src size B fuel pos rc ws
          = some (rc + ((size - pos + B - 1) / B + 1), ws ++ ws2) ∧
        ws2.sum = size - pos ∧ ws2.length = (size - pos + B - 1) / B := by
  intro fuel
  induction fuel with
  | zero =>
      intro pos rc ws _ hfuel
      exact absurd hfuel (Nat.not_succ_le_zero _)
  | succ fuel ih =>
      intro pos rc ws hpos hfuel
      by_cases hend : pos = size
      · have hsub : size - pos = 0 := by omega
        have hlen : (readAt src size pos B).length = 0 := by
          rw [readAt_length, hsub, Nat.min_zero]
        have hceil : (size - pos + B - 1) / B = 0 := by
          rw [hsub]
          exact Nat.div_eq_of_lt (by omega)
        refine ⟨[], ?_, by simp [hsub], by simp [hceil]⟩
        rw [hceil]
        simp [copyFullLoop, hlen]
      · have hlt : pos < size := by omega
        have hlen : (readAt src size pos B).length = min B (size - pos) :=
          readAt_length src size pos B
        have hpos0 : 0 < min B (size - pos) := Nat.lt_min.mpr ⟨hB, by omega⟩
        have hne : ¬(readAt src size pos B).length = 0 := by omega
        have hunf : copyFullLoop src size B (fuel + 1) pos rc ws
            = copyFullLoop src size B fuel (pos + (readAt src size pos B).length)
              (rc + 1) (ws ++ [(readAt src size pos B).length]) := by
          simp [copyFullLoop, hne]
        rw [hunf, hlen, Nat.min_comm B (size - pos)]
        have hs1 : min (size - pos) B ≤ size - pos := Nat.min_le_left _ _
        have hid := ceil_sub_chunk B (size - pos) hB (by omega)
        have e2 : size - (pos + min (size - pos) B)
            = size - pos - min (size - pos) B := by omega
        obtain ⟨ws2', hrec, hsum, hlen2⟩ :=
          ih (pos + min (size - pos) B) (rc + 1) (ws ++ [min (size - pos) B])
            (by omega) (by rw [e2]; omega)
        rw [hrec]
        rw [e2] at hsum hlen2
        refine ⟨min (size - pos) B :: ws2', ?_, ?_, ?_⟩
        · have ha : rc + 1 + ((size - (pos + min (size - pos) B) + B - 1) / B + 1)
              = rc + ((size - pos + B - 1) / B + 1) := by
            rw [e2]; omega
          have hb : (ws ++ [min (size - pos) B]) ++ ws2'
              = ws ++ min (size - pos) B :: ws2' := by simp
          rw [ha, hb]
        · rw [List.sum_cons, hsum]
          omega
        · rw [List.length_cons, hlen2]
          omega

/-! ## Claim theorems -/

/-- Claim C1: for every source byte-array `sNew`, every destination `d0` that
is byte-identical to the source at the base snapshot `sBase`, and every
extent list of disjoint in-device ranges covering all bytes on which `sNew`
differs from `sBase`, the incremental delta copy (seek both handles to each
extent's offset, copy its length in bounded sub-chunks) yields a destination
byte-identical to `sNew`, i.e. equal to a full copy of `sNew`. -/
theorem claim1_copyDelta_correct (sBase sNew d0 : Nat → Nat) (size : Nat)
    (extents : List Extent)
    (hbase : ∀ i, i < size → d0 i = sBase i)
    (hwithin : ∀ e ∈ extents, e.offset + e.length ≤ size)
    (hdisj : extents.Pairwise
      (fun e1 e2 => e1.offset + e1.length ≤ e2.offset ∨ e2.offset + e2.length ≤ e1.offset))
    (hcover : ∀ i, i < size → sNew i ≠ sBase i →
      ∃ e ∈ extents, e.offset ≤ i ∧ i < e.offset + e.length) :
    ∃ d' ws, copyDelta sNew size COPY_BLOCKSIZE extents d0 = some (d', ws) ∧
      ∀ i, i < size → d' i = sNew i := by
  obtain ⟨d', ws, hrun, hcov', hunc⟩ :=
    copyDelta_sound sNew size COPY_BLOCKSIZE (by norm_num [COPY_BLOCKSIZE]) extents d0 hwithin
  refine ⟨d', ws, hrun, ?_⟩
  intro i hi
  by_cases hc : ∃ e ∈ extents, e.offset ≤ i ∧ i < e.offset + e.length
  · exact hcov' i hc
  · have hne : ∀ e ∈ extents, ¬(e.offset ≤ i ∧ i < e.offset + e.length) :=
      fun e he hx => hc ⟨e, he, hx⟩
    have h2 : sNew i = sBase i := by
      by_contra hx
      exact hc (hcover i hi hx)
    rw [hunc i hne, hbase i hi, h2]

/-- Witness for C1 at a concrete input: a 6-byte device differing from the
base only at offset 2, with the single extent `[2, 3)`. -/
theorem claim1_witness :
    ∃ d' ws,
      copyDelta (fun i => if i = 2 then 9 else 0) 6 COPY_BLOCKSIZE
        [⟨2, 1⟩] (fun _ => 0) = some (d', ws) ∧
      ∀ i, i < 6 → d' i = (fun i => if i = 2 then 9 else 0) i :=
  claim1_copyDelta_correct (fun _ => 0) (fun i => if i = 2 then 9 else 0) (fun _ => 0) 6
    [⟨2, 1⟩] (by decide) (by decide) (by decide) (by decide)

/-- Claim C3, counterexample to the read count as stated: at `N = 0`, `C = 1`
the full-copy loop performs `1` read call (the empty read that detects EOF,
returned as the first component), not `ceil(0/1) = 0` as the claim states. -/
theorem claim3_counterexample :
    copyFullLoop (fun _ => 0) 0 1 1 0 0 [] = some (1, []) ∧
    (1 : Nat) ≠ (0 + 1 - 1) / 1 := by
  constructor
  · rfl
  · decide

/-- Claim C3 as amended: for every source size `N ≥ 0` and chunk size
`C > 0`, the full copy loop performs `ceil(N/C) + 1` read calls (the last
returning empty to signal EOF), issues `ceil(N/C)` writes, and the total
number of bytes written equals `N` (including `N = 0`, where nothing is
written). -/
theorem claim3_copyFull_reads_writes (src : Nat → Nat) (size B : Nat) (hB : 0 < B) :
    ∃ ws, copyFullLoop src size B ((size + B - 1) / B + 1) 0 0 []
        = some ((size + B - 1) / B + 1, ws) ∧
      ws.sum = size ∧ ws.length = (size + B - 1) / B := by
  obtain ⟨ws2, h, hsum, hlen⟩ :=
    copyFullLoop_sound src size B hB ((size + B - 1) / B + 1) 0 0 []
      (Nat.zero_le _) (by rw [Nat.sub_zero])
  rw [Nat.sub_zero] at h hsum hlen
  rw [Nat.zero_add] at h
  rw [List.nil_append] at h
  exact ⟨ws2, h, hsum, hlen⟩

/-- Witness for the amended C3 at a concrete input: `N = 3`, `C = 2` gives
`ceil(3/2) + 1 = 3` read calls and 3 bytes written in 2 chunks. -/
theorem claim3_witness :
    ∃ ws, copyFullLoop (fun _ => 5) 3 2 ((3 + 2 - 1) / 2 + 1) 0 0 []
        = some ((3 + 2 - 1) / 2 + 1, ws) ∧ ws.sum = 3 ∧ ws.length = (3 + 2 - 1) / 2 :=
  claim3_copyFull_reads_writes (fun _ => 5) 3 2 (by decide)

/-- Claim C10: for an extent `[offset, offset+length)` lying entirely within
the source device (every read returns the full requested sub-chunk), the
inner `while read < length` loop terminates after exactly
`ceil(length/B)` iterations — it succeeds with that much fuel, performing one
write per iteration, and is still running with one unit less — while for an
extent extending past the end of the device (`size - offset < length`, so
reads return zero bytes before `read` reaches `length`) the loop never
terminates, whatever the fuel. -/
theorem claim10_subchunk_loop_termination (src d0 : Nat → Nat)
    (size B offset length : Nat) (hB : 0 < B) :
    (offset + length ≤ size →
      ∃ st', copyExtentLoop src size B length ((length + B - 1) / B)
          ⟨d0, offset, offset, 0, []⟩ = some st' ∧
        st'.read = length ∧ st'.writes.length = (length + B - 1) / B) ∧
    (offset + length ≤ size → 0 < length →
      copyExtentLoop src size B length ((length + B - 1) / B - 1)
        ⟨d0, offset, offset, 0, []⟩ = none) ∧
    (size - offset < length →
      ∀ fuel, copyExtentLoop src size B length fuel ⟨d0, offset, offset, 0, []⟩ = none) := by
  refine ⟨?_, ?_, ?_⟩
  · intro hN
    obtain ⟨st', hloop, hread, hwlen, _⟩ :=
      copyExtentLoop_sound src d0 size B offset length hB hN ((length + B - 1) / B)
        0 d0 [] (Nat.zero_le _) (by rw [Nat.sub_zero])
        (fun j => by rw [if_neg (by omega)])
    rw [Nat.sub_zero] at hwlen
    rw [List.length_nil, Nat.zero_add] at hwlen
    exact ⟨st', hloop, hread, hwlen⟩
  · intro hN hlen
    have hceil : 1 ≤ (length + B - 1) / B := (Nat.one_le_div_iff hB).mpr (by omega)
    have := copyExtentLoop_fuel_lt src size B offset length hB hN
      ((length + B - 1) / B - 1) 0 d0 [] (Nat.zero_le _)
      (by rw [Nat.sub_zero]; omega)
    exact this
  · intro hshort fuel
    exact copyExtentLoop_stuck src size B offset length hshort fuel
      ⟨d0, offset, offset, 0, []⟩ rfl (Nat.zero_le _)

/-- Witness for C10 at a concrete input: extent `[2, 8)` on a 10-byte device
with 4-byte sub-chunks (`B = 4`, so `ceil(6/4) = 2` iterations). -/
theorem claim10_witness :
    ((2 + 6 ≤ 10 →
      ∃ st', copyExtentLoop (fun _ => 7) 10 4 6 ((6 + 4 - 1) / 4)
          ⟨(fun _ => 0), 2, 2, 0, []⟩ = some st' ∧
        st'.read = 6 ∧ st'.writes.length = (6 + 4 - 1) / 4) ∧
    (2 + 6 ≤ 10 → 0 < 6 →
      copyExtentLoop (fun _ => 7) 10 4 6 ((6 + 4 - 1) / 4 - 1)
        ⟨(fun _ => 0), 2, 2, 0, []⟩ = none) ∧
    (10 - 2 < 6 →
      ∀ fuel, copyExtentLoop (fun _ => 7) 10 4 6 fuel ⟨(fun _ => 0), 2, 2, 0, []⟩ = none)) :=
  claim10_subchunk_loop_termination (fun _ => 7) (fun _ => 0) 10 4 2 6 (by decide)

/-- Claim C2: for every external state, mode resolution returns `Initial`
exactly when the marker count is 0 and the destination block device is
absent; returns `Incremental` carrying the (single) matching marker exactly
when the count is 1 and the destination is present; raises one of the three
`inconsistent state` errors for every other count/existence combination; and
raises the not-found error when the source volume is absent. -/
theorem claim2_getBackupMode_cases (a : Args) (w : World) :
    (getBackupMode a w = Except.ok BackupMode.initial ↔
      w.cephVolumes.contains a.source = true ∧
      countPreviousCephSnapsots w.cephSnapshots = 0 ∧
      w.zfsTargetExists = false) ∧
    (∀ b, getBackupMode a w = Except.ok (BackupMode.incremental b) ↔
      w.cephVolumes.contains a.source = true ∧
      countPreviousCephSnapsots w.cephSnapshots = 1 ∧
      w.zfsTargetExists = true ∧
      w.cephSnapshots.find? isMarkerName = some b) ∧
    (w.cephVolumes.contains a.source = false →
      getBackupMode a w = Except.error (notFoundMsg a)) ∧
    (w.cephVolumes.contains a.source = true →
      ∀ msg, getBackupMode a w = Except.error msg →
        msg = inconsistentMsg1 a ∨ msg = inconsistentMsg2 a ∨ msg = inconsistentMsg3 a) ∧
    (w.cephVolumes.contains a.source = true →
      ¬(countPreviousCephSnapsots w.cephSnapshots = 0 ∧ w.zfsTargetExists = false) →
      ¬(countPreviousCephSnapsots w.cephSnapshots = 1 ∧ w.zfsTargetExists = true) →
      ∃ msg, getBackupMode a w = Except.error msg) := by
  refine ⟨?_, ?_, ?_, ?_, ?_⟩
  · constructor
    · intro h
      unfold getBackupMode at h
      split_ifs at h with hc h1 h2 h3 h4
      · refine ⟨?_, h4.1, h4.2⟩
        rcases hx : w.cephVolumes.contains a.source with _ | _
        · exact absurd hx hc
        · rfl
      · cases hp : previousCephSnapsotName w.cephSnapshots with
        | error msg => rw [hp] at h; exact Except.noConfusion h
        | ok n =>
            rw [hp] at h
            exact absurd (Except.ok.inj h).symm (fun hx => BackupMode.noConfusion hx)
    · rintro ⟨hc, h0, ht⟩
      unfold getBackupMode
      rw [if_neg (by rw [hc]; simp), if_neg (by omega), if_neg (by omega),
        if_neg (by rw [ht]; simp), if_pos ⟨h0, ht⟩]
  · intro b
    constructor
    · intro h
      obtain ⟨hc, hcount, ht, hf⟩ := getBackupMode_incremental_inv h
      exact ⟨hc, hcount, ht, hf⟩
    · rintro ⟨hc, h1, ht, hf⟩
      unfold getBackupMode
      rw [if_neg (by rw [hc]; simp), if_neg (by omega), if_neg (by rw [ht]; simp),
        if_neg (by omega), if_neg (by omega)]
      unfold previousCephSnapsotName
      rw [hf]
  · intro hc
    unfold getBackupMode
    rw [if_pos hc]
  · intro hc msg h
    unfold getBackupMode at h
    split_ifs at h with h0 h1 h2 h3 h4
    · exact absurd h0 (by rw [hc]; simp)
    · exact Or.inl (Except.error.inj h).symm
    · exact Or.inr (Or.inl (Except.error.inj h).symm)
    · exact Or.inr (Or.inr (Except.error.inj h).symm)
    · cases hp : previousCephSnapsotName w.cephSnapshots with
      | ok n => rw [hp] at h; exact Except.noConfusion h
      | error e =>
          exfalso
          have hfn : w.cephSnapshots.find? isMarkerName = none := by
            unfold previousCephSnapsotName at hp
            rcases hf : w.cephSnapshots.find? isMarkerName with _ | n
            · rfl
            · rw [hf] at hp; exact Except.noConfusion hp
          have hz : countPreviousCephSnapsots w.cephSnapshots = 0 :=
            countP_find?_none hfn
          rcases ht : w.zfsTargetExists with _ | _
          · exact h4 ⟨hz, ht⟩
          · exact h3 ⟨hz, ht⟩
  · intro hc hn1 hn2
    by_cases hgt : countPreviousCephSnapsots w.cephSnapshots > 1
    · refine ⟨inconsistentMsg1 a, ?_⟩
      unfold getBackupMode
      rw [if_neg (by rw [hc]; simp), if_pos hgt]
    · by_cases h1t : countPreviousCephSnapsots w.cephSnapshots = 1 ∧
          w.zfsTargetExists = false
      · refine ⟨inconsistentMsg2 a, ?_⟩
        unfold getBackupMode
        rw [if_neg (by rw [hc]; simp), if_neg hgt, if_pos h1t]
      · by_cases h0t : countPreviousCephSnapsots w.cephSnapshots = 0 ∧
            w.zfsTargetExists = true
        · refine ⟨inconsistentMsg3 a, ?_⟩
          unfold getBackupMode
          rw [if_neg (by rw [hc]; simp), if_neg hgt, if_neg h1t, if_pos h0t]
        · exfalso
          have hcnt : countPreviousCephSnapsots w.cephSnapshots = 0 ∨
              countPreviousCephSnapsots w.cephSnapshots = 1 := by omega
          rcases ht : w.zfsTargetExists with _ | _
          · rcases hcnt with h | h
            · exact hn1 ⟨h, ht⟩
            · exact h1t ⟨h, ht⟩
          · rcases hcnt with h | h
            · exact h0t ⟨h, ht⟩
            · exact hn2 ⟨h, ht⟩

/-- Claim C8: whenever `getBackupMode` returns the `Incremental` mode, the
marker count on the source is exactly 1, and under that precondition the
error branch of `previousCephSnapsotName` is unreachable: it returns the
unique snapshot name carrying the marker. -/
theorem claim8_incremental_base_unique (a : Args) (w : World) (b : String)
    (h : getBackupMode a w = Except.ok (BackupMode.incremental b)) :
    countPreviousCephSnapsots w.cephSnapshots = 1 ∧
    previousCephSnapsotName w.cephSnapshots = Except.ok b ∧
    isMarkerName b = true ∧
    (∀ s ∈ w.cephSnapshots, isMarkerName s = true → s = b) ∧
    ∀ msg, previousCephSnapsotName w.cephSnapshots ≠ Except.error msg := by
  obtain ⟨_hc, hcount, _ht, hf⟩ := getBackupMode_incremental_inv h
  have hname : previousCephSnapsotName w.cephSnapshots = Except.ok b := by
    unfold previousCephSnapsotName
    rw [hf]
  refine ⟨hcount, hname, List.find?_some hf, ?_, ?_⟩
  · exact countP_one_unique hcount hf
  · intro msg hmsg
    rw [hname] at hmsg
    exact Except.noConfusion hmsg

/-! ## Run-path characterizations -/

/-- The initial-mode run under a size mismatch: the source marker snapshot
is created, the destination volume is created and the source mapped, then
the size comparison raises before any byte is read or written. -/
theorem runInitial_size_mismatch (a : Args) (w : World)
    (hceph : w.cephSnapCreateCode = 0) (hzvol : w.zfsCreateVolCode = 0)
    (hsz : w.srcDevSize ≠ w.dstDevSize) :
    runInitial a w =
      { trace := [Event.createCephSnap a.source (internalSnapshotMarker ++ w.cephSnapSuffix),
                  Event.createZfsVol a.destination w.cephVolumeSize,
                  Event.mapVolume (a.source ++ "@" ++ (internalSnapshotMarker ++ w.cephSnapSuffix))]
        outcome := RunOutcome.error ("size mismatch between source and destination " ++
          toString w.srcDevSize ++ " vs " ++ toString w.dstDevSize)
        cephSnapshots := w.cephSnapshots ++ [internalSnapshotMarker ++ w.cephSnapSuffix] } := by
  have hceph' : ¬(w.cephSnapCreateCode ≠ 0) := by omega
  have hzvol' : ¬(w.zfsCreateVolCode ≠ 0) := by omega
  simp only [runInitial, compareDeviceSize, if_neg hceph', if_neg hzvol', if_pos hsz]
  rfl

/-- The incremental-mode run under a size mismatch: the new source marker
snapshot is created and the source mapped, then the size comparison raises
before the delta is fetched. -/
theorem runIncremental_size_mismatch (a : Args) (w : World) (base : String)
    (hceph : w.cephSnapCreateCode = 0)
    (hsz : w.srcDevSize ≠ w.dstDevSize) :
    runIncremental a w base =
      { trace := [Event.createCephSnap a.source (internalSnapshotMarker ++ w.cephSnapSuffix),
                  Event.mapVolume (a.source ++ "@" ++ (internalSnapshotMarker ++ w.cephSnapSuffix))]
        outcome := RunOutcome.error ("size mismatch between source and destination " ++
          toString w.srcDevSize ++ " vs " ++ toString w.dstDevSize)
        cephSnapshots := w.cephSnapshots ++ [internalSnapshotMarker ++ w.cephSnapSuffix] } := by
  have hceph' : ¬(w.cephSnapCreateCode ≠ 0) := by omega
  simp only [runIncremental, compareDeviceSize, if_neg hceph', if_pos hsz]
  rfl

/-- The incremental-mode run on its success path: every step in order,
ending with the destination snapshot and then the old-marker removal. -/
theorem runIncremental_success (a : Args) (w : World) (base : String)
    (hceph : w.cephSnapCreateCode = 0)
    (hzfs : w.zfsSnapCreateCode = 0)
    (hsz : w.srcDevSize = w.dstDevSize)
    (d' : Nat → Nat) (ws : List Nat)
    (hcd : copyDelta w.srcData w.srcDevSize COPY_BLOCKSIZE w.delta w.dstData
        = some (d', ws)) :
    runIncremental a w base =
      { trace := [Event.createCephSnap a.source (internalSnapshotMarker ++ w.cephSnapSuffix),
                  Event.mapVolume (a.source ++ "@" ++ (internalSnapshotMarker ++ w.cephSnapSuffix))]
                 ++ ws.map Event.writeBytes
                 ++ [Event.createZfsSnap a.destination (internalSnapshotMarker ++ w.zfsSnapSuffix)]
                 ++ [Event.removeCephSnap a.source base]
        outcome := RunOutcome.ok
        cephSnapshots := if w.removeSucceeds
          then (w.cephSnapshots ++ [internalSnapshotMarker ++ w.cephSnapSuffix]).erase base
          else w.cephSnapshots ++ [internalSnapshotMarker ++ w.cephSnapSuffix] } := by
  have hceph' : ¬(w.cephSnapCreateCode ≠ 0) := by omega
  have hzfs' : ¬(w.zfsSnapCreateCode ≠ 0) := by omega
  have hsz' : ¬(w.srcDevSize ≠ w.dstDevSize) := by omega
  simp only [runIncremental, compareDeviceSize, if_neg hceph', if_neg hsz', hcd,
    if_neg hzfs']
  simp [List.append_assoc]

/-- The initial-mode run never issues a snapshot removal. -/
theorem runInitial_no_remove (a : Args) (w : World) (v s : String) :
    Event.removeCephSnap v s ∉ (runInitial a w).trace := by
  unfold runInitial
  repeat' split
  all_goals simp

/-- A snapshot removal in an incremental-mode run names the source volume
and the base snapshot the run was started with. -/
theorem runIncremental_remove_inv (a : Args) (w : World) (base v s : String)
    (h : Event.removeCephSnap v s ∈ (runIncremental a w base).trace) :
    v = a.source ∧ s = base := by
  unfold runIncremental at h
  repeat' split at h
  all_goals simp at h
  all_goals exact h

/-- Claim C4 as amended: when the device sizes differ, every run that got as
far as the size check fails with the size-mismatch error before any byte is
transferred, and before any destination snapshot is created or any snapshot
removed — but the source marker snapshot has already been created at the
point the error is raised (the size check needs the mapped snapshot). -/
theorem claim4_size_mismatch_aborts (a : Args) (w : World)
    (hmode : ∃ m, getBackupMode a w = Except.ok m)
    (hceph : w.cephSnapCreateCode = 0)
    (hzvol : w.zfsCreateVolCode = 0)
    (hsz : w.srcDevSize ≠ w.dstDevSize) :
    (run a w).outcome = RunOutcome.error
      ("size mismatch between source and destination " ++
        toString w.srcDevSize ++ " vs " ++ toString w.dstDevSize) ∧
    (∀ n, Event.writeBytes n ∉ (run a w).trace) ∧
    (∀ x y, Event.createZfsSnap x y ∉ (run a w).trace) ∧
    (∀ x y, Event.removeCephSnap x y ∉ (run a w).trace) ∧
    Event.createCephSnap a.source (internalSnapshotMarker ++ w.cephSnapSuffix)
      ∈ (run a w).trace := by
  obtain ⟨m, hm⟩ := hmode
  cases m with
  | initial =>
      have hrun : run a w = runInitial a w := by
        unfold run
        rw [hm]
      rw [hrun, runInitial_size_mismatch a w hceph hzvol hsz]
      refine ⟨rfl, ?_, ?_, ?_, ?_⟩ <;> simp
  | incremental b =>
      have hrun : run a w = runIncremental a w b := by
        unfold run
        rw [hm]
      rw [hrun, runIncremental_size_mismatch a w b hceph hsz]
      refine ⟨rfl, ?_, ?_, ?_, ?_⟩ <;> simp

/-- Witness for the amended C4: in the concrete mismatch world the run stops
with the size-mismatch error. -/
theorem claim4_witness :
    (run exArgs exWorldMismatch).outcome = RunOutcome.error
      ("size mismatch between source and destination " ++
        toString exWorldMismatch.srcDevSize ++ " vs " ++
        toString exWorldMismatch.dstDevSize) :=
  (claim4_size_mismatch_aborts exArgs exWorldMismatch
    ⟨BackupMode.initial, by decide⟩ (by decide) (by decide) (by decide)).1

/-- Claim C4, counterexample to the claim as stated: in the mismatch world
the run does raise the size-mismatch error with no byte transferred, but a
snapshot *has* been created on the source system at that point — the marker
snapshot creation precedes the size check. -/
theorem claim4_counterexample :
    (run exArgs exWorldMismatch).outcome = RunOutcome.error
      ("size mismatch between source and destination 10 vs 8") ∧
    Event.createCephSnap "vol" "backup_snapshot_0a1b2c3d"
      ∈ (run exArgs exWorldMismatch).trace := by
  constructor
  · rfl
  · decide

/-- Claim C5: the code contradicts the exactly-once / idempotent cleanup the
spec requires.  `cleanup` leaves its state unchanged (it never resets
`sourcePath`), so when a termination signal triggers the handler and the
`finally` block then runs `cleanup` again, the mapped device is unmapped
twice — evaluated here at a state with a mapped device. -/
theorem claim5_cleanup_not_idempotent :
    (cleanup { sourcePath := some "/dev/nbd0", noScrubbing := false }).2
        = { sourcePath := some "/dev/nbd0", noScrubbing := false } ∧
    (cleanup { sourcePath := some "/dev/nbd0", noScrubbing := false }).1 ++
      (cleanup ((cleanup { sourcePath := some "/dev/nbd0", noScrubbing := false }).2)).1
        = [Event.unmapVolume "/dev/nbd0", Event.unmapVolume "/dev/nbd0"] := by
  exact ⟨rfl, rfl⟩

/-- Claim C6: an incremental run whose snapshot diff returns an empty extent
list performs zero writes, still creates the destination snapshot, issues
the removal of the old marker `m1`, and (the removal succeeding) leaves the
new marker `m2` as the sole marker snapshot on the source. -/
theorem claim6_incremental_empty_delta (a : Args) (w : World) (base : String)
    (hmode : getBackupMode a w = Except.ok (BackupMode.incremental base))
    (hceph : w.cephSnapCreateCode = 0)
    (hzfs : w.zfsSnapCreateCode = 0)
    (hsz : w.srcDevSize = w.dstDevSize)
    (hdelta : w.delta = [])
    (hrm : w.removeSucceeds = true) :
    (run a w).outcome = RunOutcome.ok ∧
    (∀ n, Event.writeBytes n ∉ (run a w).trace) ∧
    Event.createZfsSnap a.destination (internalSnapshotMarker ++ w.zfsSnapSuffix)
        ∈ (run a w).trace ∧
    Event.removeCephSnap a.source base ∈ (run a w).trace ∧
    countPreviousCephSnapsots (run a w).cephSnapshots = 1 ∧
    (∀ s ∈ (run a w).cephSnapshots, isMarkerName s = true →
      s = internalSnapshotMarker ++ w.cephSnapSuffix) := by
  obtain ⟨_hc, hcount, _ht, hf⟩ := getBackupMode_incremental_inv hmode
  have hmem : base ∈ w.cephSnapshots := List.mem_of_find?_eq_some hf
  have hmarker : isMarkerName base = true := List.find?_some hf
  have hcd : copyDelta w.srcData w.srcDevSize COPY_BLOCKSIZE w.delta w.dstData
      = some (w.dstData, []) := by
    rw [hdelta]
    rfl
  have hrun : run a w = runIncremental a w base := by
    unfold run
    rw [hmode]
  rw [hrun, runIncremental_success a w base hceph hzfs hsz w.dstData [] hcd, hrm]
  have herase : (w.cephSnapshots ++ [internalSnapshotMarker ++ w.cephSnapSuffix]).erase base
      = w.cephSnapshots.erase base ++ [internalSnapshotMarker ++ w.cephSnapSuffix] :=
    List.erase_append_left _ hmem
  have hzero : (w.cephSnapshots.erase base).countP isMarkerName = 0 := by
    rw [countP_erase_of_mem hmem hmarker]
    unfold countPreviousCephSnapsots at hcount
    omega
  refine ⟨rfl, ?_, ?_, ?_, ?_, ?_⟩
  · intro n
    simp
  · simp
  · simp
  · show countPreviousCephSnapsots
        ((w.cephSnapshots ++ [internalSnapshotMarker ++ w.cephSnapSuffix]).erase base) = 1
    unfold countPreviousCephSnapsots
    rw [herase, List.countP_append, hzero]
    simp [List.countP_cons, isMarkerName_append]
  · intro s hs hms
    rw [show ((if true = true
          then (w.cephSnapshots ++ [internalSnapshotMarker ++ w.cephSnapSuffix]).erase base
          else w.cephSnapshots ++ [internalSnapshotMarker ++ w.cephSnapSuffix]))
        = (w.cephSnapshots ++ [internalSnapshotMarker ++ w.cephSnapSuffix]).erase base
      from by simp] at hs
    rw [herase] at hs
    rcases List.mem_append.mp hs with h | h
    · exfalso
      exact List.countP_eq_zero.mp hzero s h hms
    · simpa using h

/-- Witness for C6: in the concrete empty-delta incremental world the run
succeeds and `m2` is the sole marker left on the source. -/
theorem claim6_witness :
    (run exArgs exWorldIncrEmpty).outcome = RunOutcome.ok ∧
    countPreviousCephSnapsots (run exArgs exWorldIncrEmpty).cephSnapshots = 1 :=
  (fun h => ⟨h.1, h.2.2.2.2.1⟩)
    (claim6_incremental_empty_delta exArgs exWorldIncrEmpty "backup_snapshot_aa"
      (by decide) (by decide) (by decide) (by decide) (by decide) (by decide))

/-- Claim C7: a failure of the old-marker deletion is non-fatal — the
deletion's exit status is never inspected (`execRaw`), so the incremental
run completes successfully whether or not the removal succeeds, and the
destination snapshot is already created before the deletion is attempted
(it precedes the removal in the trace). -/
theorem claim7_remove_failure_nonfatal (a : Args) (w : World) (base : String)
    (hmode : getBackupMode a w = Except.ok (BackupMode.incremental base))
    (hceph : w.cephSnapCreateCode = 0)
    (hzfs : w.zfsSnapCreateCode = 0)
    (hsz : w.srcDevSize = w.dstDevSize)
    (hwithin : ∀ e ∈ w.delta, e.offset + e.length ≤ w.srcDevSize) :
    (run a w).outcome = RunOutcome.ok ∧
    ∃ t, (run a w).trace = t ++ [Event.removeCephSnap a.source base] ∧
      Event.createZfsSnap a.destination (internalSnapshotMarker ++ w.zfsSnapSuffix) ∈ t := by
  obtain ⟨d', ws, hcd, _, _⟩ :=
    copyDelta_sound w.srcData w.srcDevSize COPY_BLOCKSIZE
      (by norm_num [COPY_BLOCKSIZE]) w.delta w.dstData hwithin
  have hrun : run a w = runIncremental a w base := by
    unfold run
    rw [hmode]
  rw [hrun, runIncremental_success a w base hceph hzfs hsz d' ws hcd]
  refine ⟨rfl, ?_⟩
  refine ⟨[Event.createCephSnap a.source (internalSnapshotMarker ++ w.cephSnapSuffix),
    Event.mapVolume (a.source ++ "@" ++ (internalSnapshotMarker ++ w.cephSnapSuffix))]
    ++ ws.map Event.writeBytes
    ++ [Event.createZfsSnap a.destination (internalSnapshotMarker ++ w.zfsSnapSuffix)],
    ?_, ?_⟩
  · simp
  · simp

/-- Witness for C7: in the concrete incremental world whose `rbd snap rm`
fails, the run still ends with outcome `ok`. -/
theorem claim7_witness :
    (run exArgs exWorldIncr).outcome = RunOutcome.ok :=
  (claim7_remove_failure_nonfatal exArgs exWorldIncr "backup_snapshot_aa"
    (by decide) (by decide) (by decide) (by decide) (by decide)).1

/-- Claim C9: the only snapshot a run ever removes is the `base_snapshot`
selected by `getBackupMode`, whose name necessarily carries the
`backup_snapshot_` marker; a snapshot without the marker is never deleted. -/
theorem claim9_only_marker_deleted (a : Args) (w : World) (v s : String)
    (h : Event.removeCephSnap v s ∈ (run a w).trace) :
    v = a.source ∧ getBackupMode a w = Except.ok (BackupMode.incremental s) ∧
    isMarkerName s = true := by
  unfold run at h
  rcases hm : getBackupMode a w with e | m
  · rw [hm] at h
    simp at h
  · rw [hm] at h
    cases m with
    | initial =>
        dsimp only at h
        exact absurd h (runInitial_no_remove a w v s)
    | incremental base =>
        dsimp only at h
        obtain ⟨hv, hs⟩ := runIncremental_remove_inv a w base v s h
        subst hs
        obtain ⟨_, _, _, hf⟩ := getBackupMode_incremental_inv hm
        exact ⟨hv, rfl, List.find?_some hf⟩

/-- Witness for C9: the concrete empty-delta incremental run does remove a
snapshot, and the theorem applies to it. -/
theorem claim9_witness :
    "vol" = exArgs.source ∧
    getBackupMode exArgs exWorldIncrEmpty
      = Except.ok (BackupMode.incremental "backup_snapshot_aa") ∧
    isMarkerName "backup_snapshot_aa" = true :=
  claim9_only_marker_deleted exArgs exWorldIncrEmpty "vol" "backup_snapshot_aa" (by decide)

/-- Witness for C2: the healthy first-run world resolves to `Initial`. -/
theorem claim2_witness :
    getBackupMode exArgs exWorld = Except.ok BackupMode.initial :=
  (claim2_getBackupMode_cases exArgs exWorld).1.mpr (by decide)

/-- Witness for C8: in the concrete incremental world the marker count is 1
and `previousCephSnapsotName` returns the unique marker. -/
theorem claim8_witness :
    countPreviousCephSnapsots exWorldIncrEmpty.cephSnapshots = 1 ∧
    previousCephSnapsotName exWorldIncrEmpty.cephSnapshots
      = Except.ok "backup_snapshot_aa" :=
  (fun h => ⟨h.1, h.2.1⟩)
    (claim8_incremental_base_unique exArgs exWorldIncrEmpty "backup_snapshot_aa"
      (by decide))

end RbdZfsBackup
